import Mathlib

/-!
Shallow embedding of the tornado-proxy cache and proxy handlers
(files `tornado_proxy/cache.py` and `tornado_proxy/proxy.py`), together
with theorems settling the specification claims about them.

Conventions used throughout:
  * Python byte strings are `List Nat` (each element a byte value),
    Python unicode strings are Lean `String`.
  * Filesystem state is the list of existing paths; `os.path.join` is
    modelled by `joinPath` (no argument of interest is absolute or
    ends in a slash).
  * Unix timestamps are `Int` (sqlite stores signed integers).
  * Fallible Python code is modelled with `Option`/explicit outcome
    inductives; an uncaught exception is a distinguished outcome.
-/

namespace TornadoProxy

/-! ### Generic helpers -/

/-- Maximum of a list of integers, `none` on the empty list.  Models the
result of `ORDER BY timestamp DESC LIMIT 1` over a result set. -/
def listMax : List Int → Option Int
  | [] => none
  | x :: xs =>
    match listMax xs with
    | none => some x
    | some m => some (max x m)

/-- `os.path.join a b` for the relative path fragments used by the cache. -/
def joinPath (a b : String) : String := a ++ "/" ++ b

/-- Existence test over the modelled filesystem (a list of paths). -/
def pathExists : List String → String → Bool
  | [], _ => false
  | p :: ps, q => if p = q then true else pathExists ps q

/-! ### `FileSystemCache` paths (cache.py lines 96-101, 131-136)

`FileSystemCache.hash_request` shards the hex digest into two directory
levels: `hash[0:2]/hash[2:4]/hash.gz`. -/

/-- Relative storage key produced by `FileSystemCache.hash_request`. -/
def shardKey (hash : String) : String :=
  joinPath (joinPath (hash.take 2) ((hash.drop 2).take 2)) (hash ++ ".gz")

/-- `FileSystemCache._contains` calls `os.path.exists(key)` on the
shard-relative key, which the OS resolves against the process working
directory `cwd` — the cache root is *not* prefixed. -/
def fsCacheContains (fs : List String) (cwd key : String) : Bool :=
  pathExists fs (joinPath cwd key)

/-- Effect of `FileSystemCache._set` on the set of existing paths: the
record is written at `os.path.join(self.root, key)`. -/
def fsCacheSetFile (fs : List String) (root key : String) : List String :=
  joinPath root key :: fs

/-! ### `WaybackFileSystemCache.__init__` (cache.py lines 175-182) -/

/-- Result of the constructor: where the sqlite index was opened and
whether `_create_tables` ran. -/
structure WaybackInitResult where
  dbPath : String
  createTables : Bool
deriving DecidableEq

/-- Models `WaybackFileSystemCache.__init__(root, db_file, default_within)`:
the `db_file` parameter is immediately shadowed by
`os.path.join(root, 'wayback.db')`, and tables are created exactly when
that file did not already exist. -/
def waybackCacheInit (root : String) (db_file : String) (fs : List String) :
    WaybackInitResult :=
  let db_file := joinPath root "wayback.db"
  { dbPath := db_file, createTables := !(pathExists fs db_file) }

/-! ### Wayback key resolution (cache.py lines 190-258) -/

/-- Storage path produced for a wayback snapshot:
`hash[0:2]/hash[2:4]/hash-timestamp.gz` — it embeds both the fingerprint
and the resolved timestamp. -/
def wbPath (hash : String) (ts : Int) : String :=
  joinPath (joinPath (hash.take 2) ((hash.drop 2).take 2))
    (hash ++ "-" ++ toString ts ++ ".gz")

/-- The per-request resolution state hung off the request object
(`_wb_hash`, `_wb_timestamp`, `_wb_insert`). -/
structure WbCtx where
  hash : String
  timestamp : Int
  insert : Bool
deriving DecidableEq

/-- Outcome of `WaybackFileSystemCache.hash_request`: either a resolved
context, or the `WaybackPageNotFound(url, timestamp)` exception — note
the raise site at cache.py line 251 passes no `within` argument, so the
exception's `within` field keeps its default `None`. -/
inductive WbResolve where
  | ok (ctx : WbCtx)
  | pageNotFound (url : String) (timestamp : Option Int) (within : Option Int)
deriving DecidableEq

/-- `SELECT timestamp FROM idx WHERE key=? AND cond ORDER BY timestamp DESC
LIMIT 1` over the modelled index table (rows of `(key, timestamp)`). -/
def selectLatest (idx : List (String × Int)) (key : String) (cond : Int → Bool) :
    Option Int :=
  listMax ((idx.filter (fun row => row.1 == key && cond row.2)).map (fun row => row.2))

/-- Models `WaybackFileSystemCache.hash_request` key resolution.
Inputs: the index table, the md5 fingerprint `hash`, the request URL,
the current time `now`, the `_wb_force`/preset-timestamp admin path, the
stripped `X-Wayback-Timestamp` (`requestTime`) and `X-Wayback-Within`
(`within`) header values (already converted to integers; an absent or
empty header is `none`), and `default_within` `d`. -/
def hash_request_wayback (idx : List (String × Int)) (hash url : String)
    (now : Int) (force : Bool) (presetTs : Option Int)
    (requestTime : Option Int) (within : Option Int) (d : Int) : WbResolve :=
  if force then
    .ok { hash := hash, timestamp := presetTs.getD now, insert := true }
  else
    match requestTime with
    | some rt =>
      -- error_on_miss = True
      let cond : Int → Bool :=
        match within with
        | some w =>
          if w = 0 then fun t => t == rt
          else fun t => decide (t ≤ rt) && decide (rt - w < t)
        | none => fun t => decide (t ≤ rt)
      match selectLatest idx hash cond with
      | some ts => .ok { hash := hash, timestamp := ts, insert := false }
      | none => .pageNotFound url (some rt) none
    | none =>
      let cond : Int → Bool :=
        match within with
        | some w =>
          if w = 0 then fun t => t == now
          else fun t => decide (now - w < t)
        | none => fun t => decide (now - d < t)
      match selectLatest idx hash cond with
      | some ts => .ok { hash := hash, timestamp := ts, insert := false }
      | none => .ok { hash := hash, timestamp := now, insert := true }

/-- Resolution rule claimed by the spec for the `T` absent case:
latest recorded timestamp in the half-open interval `(now − W, now]`,
falling back to a fresh insert at `now`.  (Spec wording; used to compare
against the implementation.) -/
def specResolveNoTarget (idx : List (String × Int)) (hash : String)
    (now w : Int) : WbResolve :=
  match selectLatest idx hash (fun t => decide (now - w < t) && decide (t ≤ now)) with
  | some ts => .ok { hash := hash, timestamp := ts, insert := false }
  | none => .ok { hash := hash, timestamp := now, insert := true }

/-! ### GET/POST handler flow with a wayback cache (proxy.py lines 50-108) -/

/-- String rendering of an optional integer as Python's `str.format`
renders the corresponding attribute (`None` for an absent value). -/
def optIntStr : Option Int → String
  | none => "None"
  | some i => toString i

/-- The 523 body written by `ProxyHandler.get` when `WaybackPageNotFound`
is caught: `"Could not find \"{0.url}\" in cache before {0.timestamp}
within {0.within}\n".format(e)`. -/
def fmt523 (url : String) (timestamp within : Option Int) : String :=
  "Could not find \"" ++ url ++ "\" in cache before " ++ optIntStr timestamp ++
    " within " ++ optIntStr within ++ "\n"

/-- Client-visible outcome of the cache-consulting part of
`ProxyHandler.get` for one request. -/
inductive ProxyOutcome where
  /-- A stored snapshot was found and returned; no live fetch happens. -/
  | served (timestamp : Int)
  /-- Cache miss (`cache.get` returned `None`): a live outbound fetch is
  issued with the resolved context. -/
  | liveFetch (insert : Bool) (timestamp : Int)
  /-- `WaybackPageNotFound` was caught: the handler finishes immediately
  with the given status and body, performing no live fetch. -/
  | error523 (status : Nat) (body : String)
deriving DecidableEq

/-- Models `ProxyHandler.get` from cache consultation up to the decision
live-fetch / serve-from-cache / fail-with-523.  `cache.get(req)` calls
`__getitem__`, whose key resolution may raise `WaybackPageNotFound`
(caught and turned into a 523 response, `self._status_code = 523`); on a
resolved context the snapshot file is read, a missing file being a
`KeyError`, i.e. a miss that falls through to the live fetch. -/
def proxyGetWayback (idx : List (String × Int)) (fs : List String)
    (root hash url : String) (now : Int)
    (requestTime within : Option Int) (d : Int) : ProxyOutcome :=
  match hash_request_wayback idx hash url now false none requestTime within d with
  | .pageNotFound u ts w => .error523 523 (fmt523 u ts w)
  | .ok ctx =>
    if pathExists fs (joinPath root (wbPath ctx.hash ctx.timestamp)) then
      .served ctx.timestamp
    else
      .liveFetch ctx.insert ctx.timestamp

/-! ### Storage failure propagation (proxy.py lines 52-70, cache.py
lines 131-163, 273-281)

`FileSystemCache._set` wraps only the `gzip.open`/write block in
`try/except`; `os.makedirs` (line 136) runs before the `try`, and the
`except` handler itself calls `os.remove(path)`.
`WaybackFileSystemCache.__setitem__` then runs the sqlite `INSERT`
outside any handler.  In `handle_response`, `self.cache[req] = response`
(line 60) runs before `set_status`/`write`/`finish`, so an exception
escaping the store aborts delivery of the fetched response. -/

/-- Success/failure of each OS-level operation the store performs. -/
structure StoreEnv where
  dirExists : Bool
  mkdirOk : Bool
  gzipWriteOk : Bool
  removeOk : Bool
  indexInsertOk : Bool
deriving DecidableEq

/-- Control-flow outcome of a Python call: normal return or an uncaught
exception (named after the operation that raised it). -/
inductive PyFlow where
  | ok
  | raised (op : String)
deriving DecidableEq

/-- Models `FileSystemCache._set`.  A failing `os.makedirs` raises out of
the method; a failing write is swallowed by the bare `except` (which
logs and removes the partial file); a failure of that `os.remove` itself
raises out of the `except` handler. -/
def fileSystemCacheSet (env : StoreEnv) : PyFlow :=
  if !env.dirExists && !env.mkdirOk then .raised "makedirs"
  else if env.gzipWriteOk then .ok
  else if env.removeOk then .ok
  else .raised "remove"

/-- Models `WaybackFileSystemCache.__setitem__`: the (error-swallowing)
file write, then — whenever the context is flagged as a new insert — an
unguarded sqlite `INSERT INTO idx`. -/
def waybackCacheSetItem (env : StoreEnv) (insert : Bool) : PyFlow :=
  match fileSystemCacheSet env with
  | .raised op => .raised op
  | .ok => if insert && !env.indexInsertOk then .raised "sqlite-insert" else .ok

/-- What the client ends up receiving from `handle_response`. -/
inductive Delivery where
  | delivered (code : Nat) (body : String)
  | notDelivered (op : String)
deriving DecidableEq

/-- Models `ProxyHandler.get.handle_response` on the no-transport-error
branch with `set_cache=True`: the cache store runs first; only if it
returns normally do `set_status`, the header copies, `write` and
`finish` run. -/
def handle_response (cacheConfigured : Bool) (env : StoreEnv) (insert : Bool)
    (code : Nat) (body : String) : Delivery :=
  if cacheConfigured then
    match waybackCacheSetItem env insert with
    | .raised op => .notDelivered op
    | .ok => .delivered code body
  else .delivered code body

/-- State-level effect of a wayback `put` (file set and index table),
assuming the parent directory exists and `os.remove` succeeds (the
raising paths are covered by `fileSystemCacheSet`): a failed record
write leaves no file (the bare `except` removed it) yet the index
`INSERT` still runs for a context flagged as new. -/
def waybackPut (fs : List String) (idx : List (String × Int))
    (root hash : String) (ts : Int) (gzipWriteOk : Bool) (insert : Bool) :
    List String × List (String × Int) :=
  let path := joinPath root (wbPath hash ts)
  let fs2 := if gzipWriteOk then path :: fs else fs
  let idx2 := if insert then (hash, ts) :: idx else idx
  (fs2, idx2)

/-! ### CONNECT tunnelling (proxy.py lines 114-146) -/

/-- Client-visible events of `ProxyHandler.connect`. -/
inductive ConnectEvent where
  /-- Both `read_until_close` relay loops were registered. -/
  | tunnelStarted
  | clientWrite (s : String)
deriving DecidableEq

/-- Models `ProxyHandler.connect` after parsing `host:port`:
`upstream.connect((host, port), start_tunnel)` invokes `start_tunnel`
only when the TCP connection is established; no error or close callback
is registered on either stream, so when the connect fails the stream is
closed silently and nothing is ever written to the client. -/
def proxyConnect (connectSucceeds : Bool) : List ConnectEvent :=
  if connectSucceeds then
    [.tunnelStarted, .clientWrite "HTTP/1.0 200 Connection established\r\n\r\n"]
  else
    []

/-! ### Request fingerprint (cache.py lines 19-25)

`Cache.hash_request` feeds `request.url`, then `request.method`, then
(when present) `request.body` into one `hashlib.md5` object and returns
the hex digest — i.e. the md5 of the byte concatenation
`url ∥ method ∥ body`.  MD5 is implemented below over byte lists with
`Nat` arithmetic mod 2^32 (RFC 1321). -/

namespace MD5

def MOD : Nat := 4294967296

/-- Per-round sine-derived constants `K[i] = floor(2^32 * |sin(i+1)|)`. -/
def K : List Nat := [
  3614090360, 3905402710, 606105819, 3250441966, 4118548399, 1200080426, 2821735955, 4249261313,
  1770035416, 2336552879, 4294925233, 2304563134, 1804603682, 4254626195, 2792965006, 1236535329,
  4129170786, 3225465664, 643717713, 3921069994, 3593408605, 38016083, 3634488961, 3889429448,
  568446438, 3275163606, 4107603335, 1163531501, 2850285829, 4243563512, 1735328473, 2368359562,
  4294588738, 2272392833, 1839030562, 4259657740, 2763975236, 1272893353, 4139469664, 3200236656,
  681279174, 3936430074, 3572445317, 76029189, 3654602809, 3873151461, 530742520, 3299628645,
  4096336452, 1126891415, 2878612391, 4237533241, 1700485571, 2399980690, 4293915773, 2240044497,
  1873313359, 4264355552, 2734768916, 1309151649, 4149444226, 3174756917, 718787259, 3951481745]

/-- Per-round left-rotation amounts. -/
def S : List Nat := [
  7, 12, 17, 22, 7, 12, 17, 22, 7, 12, 17, 22, 7, 12, 17, 22,
  5, 9, 14, 20, 5, 9, 14, 20, 5, 9, 14, 20, 5, 9, 14, 20,
  4, 11, 16, 23, 4, 11, 16, 23, 4, 11, 16, 23, 4, 11, 16, 23,
  6, 10, 15, 21, 6, 10, 15, 21, 6, 10, 15, 21, 6, 10, 15, 21]

/-- 32-bit left rotation. -/
def rotl (x n : Nat) : Nat := ((x <<< n) % MOD) ||| (x >>> (32 - n))

/-- Bitwise complement within 32 bits. -/
def not32 (x : Nat) : Nat := x ^^^ (MOD - 1)

/-- Little-endian byte rendering of `v` on `n` bytes. -/
def leBytes : Nat → Nat → List Nat
  | 0, _ => []
  | n + 1, v => (v % 256) :: leBytes n (v / 256)

/-- RFC 1321 padding: a `0x80` byte, zeros to 56 mod 64, then the bit
length on 8 little-endian bytes. -/
def padded (msg : List Nat) : List Nat :=
  let len := msg.length
  let zeros := (120 - ((len + 1) % 64)) % 64
  msg ++ [128] ++ List.replicate zeros 0 ++ leBytes 8 (8 * len)

def getn (l : List Nat) (i : Nat) : Nat := l.getD i 0

/-- The 16 little-endian 32-bit words of one 64-byte chunk. -/
def chunkWords (chunk : List Nat) : List Nat :=
  (List.range 16).map fun j =>
    getn chunk (4 * j) + 256 * getn chunk (4 * j + 1) +
      65536 * getn chunk (4 * j + 2) + 16777216 * getn chunk (4 * j + 3)

/-- One of the 64 mixing rounds. -/
def round (M : List Nat) (st : Nat × Nat × Nat × Nat) (i : Nat) :
    Nat × Nat × Nat × Nat :=
  let (a, b, c, d) := st
  let f :=
    if i < 16 then (b &&& c) ||| (not32 b &&& d)
    else if i < 32 then (d &&& b) ||| (not32 d &&& c)
    else if i < 48 then b ^^^ c ^^^ d
    else c ^^^ (b ||| not32 d)
  let g :=
    if i < 16 then i
    else if i < 32 then (5 * i + 1) % 16
    else if i < 48 then (3 * i + 5) % 16
    else (7 * i) % 16
  let tmp := (a + f + getn K i + getn M g) % MOD
  (d, (b + rotl tmp (getn S i)) % MOD, b, c)

/-- Process the padded message 64 bytes at a time. -/
def processChunks (bytes : List Nat) (st : Nat × Nat × Nat × Nat) :
    Nat × Nat × Nat × Nat :=
  match bytes with
  | [] => st
  | b :: rest =>
    let chunk := b :: rest.take 63
    let M := chunkWords chunk
    let (a0, b0, c0, d0) := st
    let (a, b2, c, d) := (List.range 64).foldl (round M) st
    processChunks (rest.drop 63)
      ((a0 + a) % MOD, (b0 + b2) % MOD, (c0 + c) % MOD, (d0 + d) % MOD)
termination_by bytes.length
decreasing_by simp; omega

def hexChar (n : Nat) : Char := if n < 10 then Char.ofNat (48 + n) else Char.ofNat (87 + n)

def byteHex (b : Nat) : String := String.mk [hexChar (b / 16), hexChar (b % 16)]

/-- Hex rendering of one state word, least significant byte first. -/
def wordHexLE (w : Nat) : String :=
  byteHex (w % 256) ++ byteHex (w / 256 % 256) ++ byteHex (w / 65536 % 256) ++
    byteHex (w / 16777216 % 256)

/-- `hashlib.md5(msg).hexdigest()`. -/
def md5hex (msg : List Nat) : String :=
  let (a, b, c, d) :=
    processChunks (padded msg) (1732584193, 4023233417, 2562383102, 271733878)
  wordHexLE a ++ wordHexLE b ++ wordHexLE c ++ wordHexLE d

end MD5

/-- UTF-8 encoding of one code point. -/
def utf8EncodeChar (c : Nat) : List Nat :=
  if c < 128 then [c]
  else if c < 2048 then [192 + c / 64, 128 + c % 64]
  else if c < 65536 then [224 + c / 4096, 128 + (c / 64) % 64, 128 + c % 64]
  else [240 + c / 262144, 128 + (c / 4096) % 64, 128 + (c / 64) % 64, 128 + c % 64]

/-- Byte content of a string (UTF-8, identity on the ASCII data the
proxy handles). -/
def strToBytes (s : String) : List Nat :=
  (s.data.map (fun c => utf8EncodeChar c.toNat)).flatten

/-- The `(method, url, body)` view of a `tornado.httpclient.HTTPRequest`
relevant to `Cache.hash_request` (`body = none` models Python `None`). -/
structure PyRequest where
  url : String
  method : String
  body : Option String
deriving DecidableEq

/-- The byte stream fed to the md5 object by `Cache.hash_request`:
`hash.update(request.url)`, then `hash.update(request.method)`, then
`hash.update(request.body)` when the body is not `None`. -/
def hashInputBytes (r : PyRequest) : List Nat :=
  strToBytes r.url ++ strToBytes r.method ++
    (match r.body with
     | some b => strToBytes b
     | none => [])

/-- `Cache.hash_request`: md5 hex digest of the concatenated stream. -/
def hash_request (r : PyRequest) : String := MD5.md5hex (hashInputBytes r)

/-! ### On-disk record serialization (cache.py lines 70-77, 103-163)

The stored file is gzipped UTF-8 text.  gzip plus the
`codecs` UTF-8 reader/writer pair is byte-transparent for the text
written, so the file is modelled by its text content (a `List Char`).
Python 2 byte strings (`str`) are `PyBody.bytes` over byte values,
unicode strings are `PyBody.text`. -/

/-- First-match lookup in a header mapping (`headers['Content-Type']`). -/
def lookupHeader : List (String × String) → String → Option String
  | [], _ => none
  | kv :: rest, key => if kv.1 = key then some kv.2 else lookupHeader rest key

/-- Mapping update `headers[k] = v`: replace the first binding of `k`,
or append one. -/
def setHeader : List (String × String) → String → String → List (String × String)
  | [], k, v => [(k, v)]
  | kv :: rest, k, v =>
    if kv.1 = k then (k, v) :: rest else kv :: setHeader rest k v

/-- Drop every binding of `k` (used to compare headers while ignoring an
injected provenance header). -/
def eraseHeader (h : List (String × String)) (k : String) : List (String × String) :=
  h.filter (fun kv => !(kv.1 == k))

/-- Python `str.split(sep)` (no maxsplit): every separator occurrence
starts a new group, an empty input giving one empty group. -/
def splitOnChar (sep : Char) : List Char → List (List Char)
  | [] => [[]]
  | c :: rest =>
    let r := splitOnChar sep rest
    if c = sep then [] :: r
    else
      match r with
      | [] => [[c]]
      | g :: gs => (c :: g) :: gs

/-- ASCII `str.lower()` (charset tokens are ASCII). -/
def lowerChar (c : Char) : Char :=
  if 65 ≤ c.toNat && c.toNat ≤ 90 then Char.ofNat (c.toNat + 32) else c

def lowerStr (s : String) : String := String.mk (s.data.map lowerChar)

/-- ASCII `str.upper()` on one character. -/
def upperChar (c : Char) : Char :=
  if 97 ≤ c.toNat && c.toNat ≤ 122 then Char.ofNat (c.toNat - 32) else c

/-- Python `str.capitalize()`: first character uppercased, the rest
lowercased. -/
def capitalizePart : List Char → List Char
  | [] => []
  | c :: rest => upperChar c :: rest.map lowerChar

/-- Join name parts back with `'-'`. -/
def joinDashTail : List (List Char) → List Char
  | [] => []
  | p :: ps => '-' :: (p ++ joinDashTail ps)

def joinDash : List (List Char) → List Char
  | [] => []
  | p :: ps => p ++ joinDashTail ps

/-- Tornado `HTTPHeaders._normalize_name`:
`"-".join([w.capitalize() for w in name.split("-")])`.  (The fast-path
regex in tornado returns already-normalized names unchanged, which
coincides with this formula on such names, so the single formula models
both branches.) -/
def normalizeHeaderName (s : String) : String :=
  String.mk (joinDash ((splitOnChar '-' s.data).map capitalizePart))

/-- `HTTPHeaders(mapping)`: every pair is inserted through the
name-normalizing `__setitem__`, later bindings of the same normalized
name overwriting earlier ones. -/
def httpHeadersOf (h : List (String × String)) : List (String × String) :=
  h.foldl (fun acc kv => setHeader acc (normalizeHeaderName kv.1) kv.2) []

/-- `get_content_charset`: `headers['Content-Type'].split(';')[1].split('=')[1].lower()`,
with `KeyError`/`IndexError` falling back to `'latin1'`. -/
def get_content_charset (headers : List (String × String)) : String :=
  match lookupHeader headers "Content-Type" with
  | none => "latin1"
  | some ct =>
    match (splitOnChar ';' ct.data).get? 1 with
    | none => "latin1"
    | some part =>
      match (splitOnChar '=' part).get? 1 with
      | none => "latin1"
      | some cs => lowerStr (String.mk cs)

/-- `bytes.decode('latin1')`: every byte value is its code point. -/
def latin1Decode (bs : List Nat) : Option String :=
  if bs.all (· < 256) then some (String.mk (bs.map Char.ofNat)) else none

/-- `text.encode('latin1')`: fails (`UnicodeEncodeError`) on a code
point above 255. -/
def latin1Encode (s : String) : Option (List Nat) :=
  if s.data.all (fun c => c.toNat < 256) then some (s.data.map Char.toNat) else none

def isContByte (b : Nat) : Bool := 128 ≤ b && b < 192

/-- Strict UTF-8 decoding (as `bytes.decode('utf-8')`): rejects stray
continuation bytes, overlong forms, surrogates and out-of-range code
points. -/
def utf8DecAux : Nat → List Nat → Option (List Char)
  | _, [] => some []
  | 0, _ :: _ => none
  | fuel + 1, b :: rest =>
    if b < 128 then (utf8DecAux fuel rest).map (fun cs => Char.ofNat b :: cs)
    else if b < 192 then none
    else if b < 224 then
      match rest with
      | b2 :: r =>
        if isContByte b2 then
          let cp := (b - 192) * 64 + (b2 - 128)
          if 128 ≤ cp then (utf8DecAux fuel r).map (fun cs => Char.ofNat cp :: cs)
          else none
        else none
      | [] => none
    else if b < 240 then
      match rest with
      | b2 :: b3 :: r =>
        if isContByte b2 && isContByte b3 then
          let cp := (b - 224) * 4096 + (b2 - 128) * 64 + (b3 - 128)
          if 2048 ≤ cp && !(55296 ≤ cp && cp < 57344) then
            (utf8DecAux fuel r).map (fun cs => Char.ofNat cp :: cs)
          else none
        else none
      | _ => none
    else if b < 248 then
      match rest with
      | b2 :: b3 :: b4 :: r =>
        if isContByte b2 && isContByte b3 && isContByte b4 then
          let cp := (b - 240) * 262144 + (b2 - 128) * 4096 + (b3 - 128) * 64 + (b4 - 128)
          if 65536 ≤ cp && cp < 1114112 then
            (utf8DecAux fuel r).map (fun cs => Char.ofNat cp :: cs)
          else none
        else none
      | _ => none
    else none

def utf8Decode (bs : List Nat) : Option String :=
  (utf8DecAux bs.length bs).map String.mk

/-- `bytes.decode(charset)` for the two codecs the cache's defaults can
produce (`'utf-8'` from a Content-Type parameter and the `'latin1'`
fallback); other codec names are outside the modelled fragment. -/
def pyDecode (charset : String) (bs : List Nat) : Option String :=
  if charset = "utf-8" then utf8Decode bs
  else if charset = "latin1" then latin1Decode bs
  else none

/-- `text.encode(charset)` for the modelled codecs; `_get` only encodes
when the charset is not `'utf-8'`. -/
def pyEncode (charset : String) (s : String) : Option (List Nat) :=
  if charset = "latin1" then latin1Encode s else none

/-- Decimal digit rendering, structurally recursive on a fuel bound so
that it reduces in the kernel. -/
def natToDigitsAux : Nat → Nat → List Char
  | 0, _ => []
  | fuel + 1, n =>
    if n < 10 then [Char.ofNat (48 + n)]
    else natToDigitsAux fuel (n / 10) ++ [Char.ofNat (48 + n % 10)]

/-- Decimal digits of a natural number, as `unicode(val.code)` writes
them. -/
def natToDigits (n : Nat) : List Char := natToDigitsAux (n + 1) n

def isDigitChar (c : Char) : Bool := 48 ≤ c.toNat && c.toNat ≤ 57

def digitVal (c : Char) : Nat := c.toNat - 48

/-- `int(s)` on the canonical digit strings the cache writes. -/
def parseNatDigits (l : List Char) : Option Nat :=
  if !l.isEmpty && l.all isDigitChar then
    some (l.foldl (fun a c => a * 10 + digitVal c) 0)
  else none

/-- `f.readline()` on a text stream: the consumed line (trailing
newline included) and the remaining text. -/
def readLine : List Char → List Char × List Char
  | [] => ([], [])
  | c :: rest =>
    if c = '\n' then ([c], rest)
    else
      let p := readLine rest
      (c :: p.1, p.2)

/-- `s.split(',', 1)` when it yields two parts; `none` when the line
has no comma (the two-target unpacking then raises `ValueError`). -/
def splitOnce : List Char → Option (List Char × List Char)
  | [] => none
  | c :: rest =>
    if c = ',' then some ([], rest)
    else (splitOnce rest).map (fun p => (c :: p.1, p.2))

/-- Characters that need no JSON escaping and keep the header lines
single-line; the round-trip theorems are scoped to such headers. -/
def plainChar (c : Char) : Bool := !(c == '"' || c == '\\' || c == '\n')

def plainStr (s : String) : Bool := s.data.all plainChar

def plainHeaders (h : List (String × String)) : Bool :=
  h.all (fun kv => plainStr kv.1 && plainStr kv.2)

/-- JSON escaping of one character (the fragment exercised by plain
headers plus the quote/backslash escapes). -/
def escChar (c : Char) : List Char :=
  if c = '"' || c = '\\' then ['\\', c] else [c]

/-- A JSON string literal. -/
def jsonStr (s : String) : List Char :=
  '"' :: ((s.data.map escChar).flatten ++ ['"'])

/-- One `"key": "value"` member, with `json.dumps`' default `': '`
separator. -/
def jsonEntry (kv : String × String) : List Char :=
  jsonStr kv.1 ++ (':' :: ' ' :: jsonStr kv.2)

/-- Continuation of the member list: each further member is preceded by
`json.dumps`' default `', '` separator. -/
def jsonEntriesTail : List (String × String) → List Char
  | [] => []
  | kv :: rest => ',' :: ' ' :: (jsonEntry kv ++ jsonEntriesTail rest)

/-- The members joined by `json.dumps`' default `', '` separator. -/
def jsonEntriesChars : List (String × String) → List Char
  | [] => []
  | kv :: rest => jsonEntry kv ++ jsonEntriesTail rest

/-- `json.dumps(headers)` for a flat string-to-string mapping. -/
def jsonDumps (h : List (String × String)) : List Char :=
  '\x7b' :: (jsonEntriesChars h ++ ['\x7d'])

/-- Body of a JSON string literal: content up to the closing quote
(only the quote/backslash escapes are in the modelled fragment). -/
def pjStrAux : List Char → Option (List Char × List Char)
  | [] => none
  | c :: rest =>
    if c = '"' then some ([], rest)
    else if c = '\\' then
      match rest with
      | [] => none
      | c2 :: rest2 =>
        if c2 = '"' || c2 = '\\' then
          (pjStrAux rest2).map (fun p => (c2 :: p.1, p.2))
        else none
    else (pjStrAux rest).map (fun p => (c :: p.1, p.2))

/-- A JSON string literal, returning the decoded string and the rest. -/
def pjString : List Char → Option (String × List Char)
  | [] => none
  | c :: rest =>
    if c = '"' then (pjStrAux rest).map (fun p => (String.mk p.1, p.2))
    else none

/-- The members of a JSON object after the opening brace (at least one
member), ending at the closing brace.  Fuel bounds the member count. -/
def pjEntriesAux : Nat → List Char → Option (List (String × String) × List Char)
  | 0, _ => none
  | fuel + 1, l =>
    match pjString l with
    | none => none
    | some (k, l1) =>
      match l1 with
      | ':' :: ' ' :: l2 =>
        match pjString l2 with
        | none => none
        | some (v, l3) =>
          match l3 with
          | '\x7d' :: rest => some ([(k, v)], rest)
          | ',' :: ' ' :: rest =>
            (pjEntriesAux fuel rest).map (fun p => ((k, v) :: p.1, p.2))
          | _ => none
      | _ => none

/-- A JSON object of string members (the member-count fuel is bounded by
the input length). -/
def pjObject (l : List Char) : Option (List (String × String) × List Char) :=
  match l with
  | '\x7b' :: '\x7d' :: rest => some ([], rest)
  | '\x7b' :: rest => pjEntriesAux l.length rest
  | _ => none

def isWsChar (c : Char) : Bool := c == ' ' || c == '\n' || c == '\t' || c == '\r'

/-- `json.loads` on the object line produced by the cache (modelled for
flat string-to-string objects; trailing whitespace ignored). -/
def jsonLoads (l : List Char) : Option (List (String × String)) :=
  match pjObject l with
  | some (h, rest) => if rest.all isWsChar then some h else none
  | none => none

/-- A Python 2 response body: `str` (bytes) or `unicode` (text). -/
inductive PyBody where
  | bytes (bs : List Nat)
  | text (s : String)
deriving DecidableEq

/-- The `HTTPResponse` namedtuple fields the cache stores (`error` as
`(code, message)`). -/
structure CachedResponse where
  url : String
  error : Option (Nat × String)
  code : Nat
  headers : List (String × String)
  body : PyBody
deriving DecidableEq

/-- Models `FileSystemCache._set`: inject the provenance header, then
write URL line, `code,message` line, JSON header line, and the body
(byte bodies decoded with the declared charset).  `none` models the
write attempt failing (swallowed by the caller-visible contract, the
partial file removed), e.g. on an undecodable body. -/
def writeRecord (key : String) (r : CachedResponse) : Option (List Char) :=
  match (match r.body with
         | .text s => some s.data
         | .bytes bs =>
           (pyDecode (get_content_charset (setHeader r.headers "X-Proxy-Cache-Key" key)) bs).map
             String.data) with
  | none => none
  | some bt =>
    some (r.url.data ++ '\n' ::
      ((match r.error with
        | some e => natToDigits e.1 ++ (',' :: e.2.data)
        | none => natToDigits r.code ++ [',']) ++ '\n' ::
        (jsonDumps (setHeader r.headers "X-Proxy-Cache-Key" key) ++ '\n' :: bt)))

/-- Models `FileSystemCache._get` on an existing record file: three
`readline`s, `int` and `split(',', 1)` parsing, `json.loads` of the
header line wrapped in tornado `HTTPHeaders` (which normalizes header
names to Http-Header-Case, cache.py line 116), provenance-header
injection through the same normalizing `__setitem__`, then the body
re-encoded with the declared charset unless it is `'utf-8'` (the
`Content-Type` lookup on `HTTPHeaders` normalizes its key, which is the
identity on `"Content-Type"`, so a plain lookup over the normalized
names is faithful). -/
def readRecord (key : String) (file : List Char) : Option CachedResponse :=
  match readLine file with
  | (l1, r1) =>
    match readLine r1 with
    | (l2, r2) =>
      match splitOnce l2 with
      | none => none
      | some (codeStr, msgChars) =>
        match parseNatDigits codeStr with
        | none => none
        | some code =>
          match readLine r2 with
          | (l3, r3) =>
            match jsonLoads l3 with
            | none => none
            | some hs0 =>
              match (if get_content_charset (setHeader (httpHeadersOf hs0)
                         (normalizeHeaderName "X-Proxy-Cache-Key") key) = "utf-8"
                     then some (PyBody.text (String.mk r3))
                     else
                       (pyEncode (get_content_charset (setHeader (httpHeadersOf hs0)
                           (normalizeHeaderName "X-Proxy-Cache-Key") key))
                         (String.mk r3)).map PyBody.bytes) with
              | none => none
              | some b =>
                some { url := String.mk l1,
                       error := if msgChars.isEmpty then none
                                else some (code, String.mk msgChars),
                       code := code,
                       headers := setHeader (httpHeadersOf hs0)
                         (normalizeHeaderName "X-Proxy-Cache-Key") key,
                       body := b }

/-- Store then read back under the same key. -/
def roundTrip (key : String) (r : CachedResponse) : Option CachedResponse :=
  (writeRecord key r).bind (readRecord key)

/-! ### Helper lemmas -/

theorem listMax_eq_none {l : List Int} (h : listMax l = none) : l = [] := by
  cases l with
  | nil => rfl
  | cons x xs =>
    exfalso
    cases hx : listMax xs <;> simp [listMax, hx] at h

theorem listMax_mem {l : List Int} {m : Int} (h : listMax l = some m) : m ∈ l := by
  induction l generalizing m with
  | nil => simp [listMax] at h
  | cons x xs ih =>
    cases hx : listMax xs with
    | none =>
      simp [listMax, hx] at h
      subst h
      exact List.mem_cons_self x xs
    | some m2 =>
      simp [listMax, hx] at h
      rcases max_choice x m2 with hc | hc
      · rw [hc] at h
        subst h
        exact List.mem_cons_self x xs
      · rw [hc] at h
        subst h
        exact List.mem_cons_of_mem x (ih hx)

theorem listMax_le {l : List Int} {m : Int} (h : listMax l = some m) :
    ∀ x ∈ l, x ≤ m := by
  induction l generalizing m with
  | nil => simp
  | cons x xs ih =>
    intro y hy
    cases hx : listMax xs with
    | none =>
      have hxs := listMax_eq_none hx
      subst hxs
      simp [listMax] at h
      simp at hy
      omega
    | some m2 =>
      simp [listMax, hx] at h
      rcases List.mem_cons.mp hy with rfl | hmem
      · rw [← h]
        exact le_max_left _ _
      · calc y ≤ m2 := ih hx y hmem
          _ ≤ max x m2 := le_max_right _ _
          _ = m := h

theorem selectLatest_some {idx : List (String × Int)} {key : String}
    {cond : Int → Bool} {m : Int} (h : selectLatest idx key cond = some m) :
    (∃ row ∈ idx, row.1 = key ∧ row.2 = m) ∧ cond m = true ∧
      ∀ row ∈ idx, row.1 = key → cond row.2 = true → row.2 ≤ m := by
  unfold selectLatest at h
  have hmem := listMax_mem h
  have hle := listMax_le h
  rw [List.mem_map] at hmem
  obtain ⟨row, hrowf, hrow2⟩ := hmem
  rw [List.mem_filter] at hrowf
  obtain ⟨hrowIdx, hpred⟩ := hrowf
  rw [Bool.and_eq_true, beq_iff_eq] at hpred
  refine ⟨⟨row, hrowIdx, hpred.1, hrow2⟩, hrow2 ▸ hpred.2, ?_⟩
  intro row2 hr2 hk2 hc2
  apply hle
  rw [List.mem_map]
  exact ⟨row2, List.mem_filter.mpr ⟨hr2, by rw [Bool.and_eq_true, beq_iff_eq]; exact ⟨hk2, hc2⟩⟩, rfl⟩

theorem selectLatest_none {idx : List (String × Int)} {key : String}
    {cond : Int → Bool} (h : selectLatest idx key cond = none) :
    ∀ row ∈ idx, row.1 = key → cond row.2 = false := by
  intro row hr hk
  unfold selectLatest at h
  have hnil := listMax_eq_none h
  rw [List.map_eq_nil_iff] at hnil
  have := List.filter_eq_nil_iff.mp hnil row hr
  rw [Bool.and_eq_true, beq_iff_eq] at this
  cases hc : cond row.2 with
  | false => rfl
  | true => exact absurd ⟨hk, hc⟩ this

theorem hash_request_wayback_target {idx : List (String × Int)} {hash url : String}
    {now rt w d : Int} (hw : w ≠ 0) :
    hash_request_wayback idx hash url now false none (some rt) (some w) d =
      (match selectLatest idx hash (fun t => decide (t ≤ rt) && decide (rt - w < t)) with
       | some ts => .ok { hash := hash, timestamp := ts, insert := false }
       | none => .pageNotFound url (some rt) none) := by
  unfold hash_request_wayback
  simp [hw]

theorem hash_request_wayback_noTarget {idx : List (String × Int)} {hash url : String}
    {now w d : Int} (hw : w ≠ 0) :
    hash_request_wayback idx hash url now false none none (some w) d =
      (match selectLatest idx hash (fun t => decide (now - w < t)) with
       | some ts => .ok { hash := hash, timestamp := ts, insert := false }
       | none => .ok { hash := hash, timestamp := now, insert := true }) := by
  unfold hash_request_wayback
  simp [hw]

theorem hash_request_wayback_noTarget_noWithin {idx : List (String × Int)}
    {hash url : String} {now d : Int} :
    hash_request_wayback idx hash url now false none none none d =
      (match selectLatest idx hash (fun t => decide (now - d < t)) with
       | some ts => .ok { hash := hash, timestamp := ts, insert := false }
       | none => .ok { hash := hash, timestamp := now, insert := true }) := rfl

theorem window_resolve_some {idx : List (String × Int)} {hash : String} {w ts : Int}
    (hsel : selectLatest idx hash (fun t => decide (w < t)) = some ts) :
    (hash, ts) ∈ idx ∧ w < ts ∧
      ∀ row ∈ idx, row.1 = hash → w < row.2 → row.2 ≤ ts := by
  obtain ⟨⟨row, hrow, hk, ht⟩, hc, hub⟩ := selectLatest_some hsel
  refine ⟨?_, by simpa using hc, ?_⟩
  · have : (hash, ts) = row := by
      rw [← hk, ← ht]
    exact this ▸ hrow
  · intro row2 h2 hk2 hlt2
    exact hub row2 h2 hk2 (by simpa using hlt2)

theorem window_resolve_none {idx : List (String × Int)} {hash : String} {w : Int}
    (hsel : selectLatest idx hash (fun t => decide (w < t)) = none) :
    ∀ row ∈ idx, row.1 = hash → row.2 ≤ w := by
  intro row hrow hk
  have := selectLatest_none hsel row hrow hk
  simp at this
  omega

theorem joinPath_left_injective {a b k : String} (h : joinPath a k = joinPath b k) :
    a = b := by
  unfold joinPath at h
  have hd := congrArg String.data h
  simp only [String.data_append] at hd
  have h1 : a.data ++ "/".data = b.data ++ "/".data := List.append_cancel_right hd
  exact String.ext (List.append_cancel_right h1)

theorem charOfNat_toNat {n : Nat} (h : n < 55296) : (Char.ofNat n).toNat = n := by
  have hv : n < 55296 ∨ 57343 < n ∧ n < 1114112 := Or.inl h
  simp [Char.ofNat, Char.toNat, dif_pos hv, Char.ofNatAux, UInt32.toNat,
    BitVec.toNat_ofNatLt]

theorem stringMk_data (s : String) : String.mk s.data = s := String.ext rfl

theorem isEmpty_false_of_ne_nil {α : Type} {l : List α} (h : l ≠ []) :
    l.isEmpty = false := by
  cases l with
  | nil => exact absurd rfl h
  | cons a t => rfl

theorem isDigitChar_ofNat {d : Nat} (h : d < 10) :
    isDigitChar (Char.ofNat (48 + d)) = true := by
  unfold isDigitChar
  rw [charOfNat_toNat (by omega)]
  simp only [Bool.and_eq_true, decide_eq_true_eq]
  omega

theorem digitVal_ofNat {d : Nat} (h : d < 10) :
    digitVal (Char.ofNat (48 + d)) = d := by
  unfold digitVal
  rw [charOfNat_toNat (by omega)]
  omega

theorem natToDigitsAux_ne_nil : ∀ {fuel n : Nat}, n < fuel →
    natToDigitsAux fuel n ≠ [] := by
  intro fuel
  induction fuel with
  | zero => intro n h; exact absurd h (Nat.not_lt_zero n)
  | succ f ih =>
    intro n h
    unfold natToDigitsAux
    by_cases h10 : n < 10
    · simp [h10]
    · simp [h10]

theorem natToDigitsAux_all_digit : ∀ {fuel n : Nat}, n < fuel →
    (natToDigitsAux fuel n).all isDigitChar = true := by
  intro fuel
  induction fuel with
  | zero => intro n h; exact absurd h (Nat.not_lt_zero n)
  | succ f ih =>
    intro n h
    unfold natToDigitsAux
    by_cases h10 : n < 10
    · simp only [if_pos h10, List.all_cons, List.all_nil, Bool.and_true]
      exact isDigitChar_ofNat h10
    · have hdiv : n / 10 < n := Nat.div_lt_self (by omega) (by omega)
      have hlt : n / 10 < f := by omega
      simp only [if_neg h10, List.all_append, List.all_cons, List.all_nil,
        Bool.and_true, Bool.and_eq_true]
      exact ⟨ih hlt, isDigitChar_ofNat (Nat.mod_lt _ (by omega))⟩

theorem natToDigitsAux_foldl : ∀ {fuel n : Nat}, n < fuel → ∀ a : Nat,
    (natToDigitsAux fuel n).foldl (fun acc c => acc * 10 + digitVal c) a =
      a * 10 ^ (natToDigitsAux fuel n).length + n := by
  intro fuel
  induction fuel with
  | zero => intro n h; exact absurd h (Nat.not_lt_zero n)
  | succ f ih =>
    intro n h a
    unfold natToDigitsAux
    by_cases h10 : n < 10
    · simp only [if_pos h10, List.foldl_cons, List.foldl_nil, List.length_cons,
        List.length_nil, zero_add, pow_one]
      rw [digitVal_ofNat h10]
    · have hdiv : n / 10 < n := Nat.div_lt_self (by omega) (by omega)
      have hlt : n / 10 < f := by omega
      simp only [if_neg h10, List.foldl_append, List.foldl_cons, List.foldl_nil,
        List.length_append, List.length_cons, List.length_nil, zero_add]
      rw [ih hlt a, digitVal_ofNat (Nat.mod_lt _ (by omega))]
      have hdm : n / 10 * 10 + n % 10 = n := by omega
      calc (a * 10 ^ (natToDigitsAux f (n / 10)).length + n / 10) * 10 + n % 10
          = a * (10 ^ (natToDigitsAux f (n / 10)).length * 10) +
              (n / 10 * 10 + n % 10) := by ring
        _ = a * 10 ^ ((natToDigitsAux f (n / 10)).length + 1) + n := by
            rw [hdm, pow_succ]

theorem parseNatDigits_natToDigits (n : Nat) :
    parseNatDigits (natToDigits n) = some n := by
  unfold parseNatDigits natToDigits
  have h1 := natToDigitsAux_ne_nil (Nat.lt_succ_self n)
  have h2 := natToDigitsAux_all_digit (Nat.lt_succ_self n)
  have h3 := natToDigitsAux_foldl (Nat.lt_succ_self n) 0
  rw [isEmpty_false_of_ne_nil h1, h2, h3]
  simp

theorem digit_not_newline {c : Char} (h : isDigitChar c = true) :
    (!(c == '\n')) = true := by
  by_cases hc : c = '\n'
  · subst hc
    exact absurd h (by decide)
  · simp [hc]

theorem digit_not_comma {c : Char} (h : isDigitChar c = true) :
    (!(c == ',')) = true := by
  by_cases hc : c = ','
  · subst hc
    exact absurd h (by decide)
  · simp [hc]

theorem all_weaken {xs : List Char} {p q : Char → Bool}
    (h : xs.all p = true) (himp : ∀ c, p c = true → q c = true) :
    xs.all q = true := by
  rw [List.all_eq_true] at h ⊢
  exact fun c hc => himp c (h c hc)

theorem readLine_append (xs rest : List Char)
    (h : xs.all (fun c => !(c == '\n')) = true) :
    readLine (xs ++ '\n' :: rest) = (xs ++ ['\n'], rest) := by
  induction xs with
  | nil => simp [readLine]
  | cons c cs ih =>
    simp only [List.all_cons, Bool.and_eq_true] at h
    have hc : ¬(c = '\n') := by simpa using h.1
    simp [readLine, hc, ih h.2]

theorem splitOnce_append (xs rest : List Char)
    (h : xs.all (fun c => !(c == ',')) = true) :
    splitOnce (xs ++ ',' :: rest) = some (xs, rest) := by
  induction xs with
  | nil => simp [splitOnce]
  | cons c cs ih =>
    simp only [List.all_cons, Bool.and_eq_true] at h
    have hc : ¬(c = ',') := by simpa using h.1
    simp [splitOnce, hc, ih h.2]

theorem plainChar_spec {c : Char} (h : plainChar c = true) :
    c ≠ '"' ∧ c ≠ '\\' ∧ c ≠ '\n' := by
  unfold plainChar at h
  simp only [Bool.not_eq_true', Bool.or_eq_false_iff, beq_eq_false_iff_ne, ne_eq] at h
  exact ⟨h.1.1, h.1.2, h.2⟩

theorem escChar_plain {c : Char} (h : plainChar c = true) : escChar c = [c] := by
  obtain ⟨h1, h2, _⟩ := plainChar_spec h
  unfold escChar
  rw [if_neg]
  simp [h1, h2]

theorem flatten_escChar {s : List Char} (h : s.all plainChar = true) :
    (s.map escChar).flatten = s := by
  induction s with
  | nil => rfl
  | cons c cs ih =>
    simp only [List.all_cons, Bool.and_eq_true] at h
    simp [escChar_plain h.1, ih h.2]

theorem jsonStr_plain {s : String} (h : plainStr s = true) :
    jsonStr s = '"' :: (s.data ++ ['"']) := by
  unfold jsonStr
  rw [flatten_escChar h]

theorem pjStrAux_append {s : List Char} (rest : List Char)
    (h : s.all plainChar = true) :
    pjStrAux (s ++ '"' :: rest) = some (s, rest) := by
  induction s with
  | nil =>
    rw [pjStrAux.eq_def]
    simp
  | cons c cs ih =>
    simp only [List.all_cons, Bool.and_eq_true] at h
    obtain ⟨h1, h2, _⟩ := plainChar_spec h.1
    rw [List.cons_append, pjStrAux.eq_def]
    simp [h1, h2, ih h.2]

theorem pjString_append {s : String} (rest : List Char) (h : plainStr s = true) :
    pjString (jsonStr s ++ rest) = some (s, rest) := by
  rw [jsonStr_plain h, List.cons_append, List.append_assoc, List.singleton_append]
  simp [pjString, pjStrAux_append rest h, stringMk_data]

theorem jsonStr_length_pos (s : String) : 1 ≤ (jsonStr s).length := by
  unfold jsonStr
  simp

theorem jsonEntriesTail_length (hh : List (String × String)) :
    hh.length ≤ (jsonEntriesTail hh).length := by
  induction hh with
  | nil => simp [jsonEntriesTail]
  | cons kv t ih =>
    simp only [jsonEntriesTail, List.length_cons, List.length_append]
    omega

theorem jsonEntriesChars_length (hh : List (String × String)) :
    hh.length ≤ (jsonEntriesChars hh).length := by
  cases hh with
  | nil => simp [jsonEntriesChars]
  | cons kv t =>
    have h1 := jsonEntriesTail_length t
    have h2 := jsonStr_length_pos kv.1
    simp only [jsonEntriesChars, jsonEntry, List.length_cons, List.length_append]
    omega

theorem pjEntriesAux_dumps : ∀ (hh : List (String × String)) (fuel : Nat)
    (rest : List Char), hh ≠ [] → hh.length ≤ fuel → plainHeaders hh = true →
    pjEntriesAux fuel (jsonEntriesChars hh ++ '\x7d' :: rest) = some (hh, rest) := by
  intro hh
  induction hh with
  | nil => intro fuel rest hne; exact absurd rfl hne
  | cons kv t ih =>
    intro fuel rest _ hfuel hplain
    unfold plainHeaders at hplain
    simp only [List.all_cons, Bool.and_eq_true] at hplain
    obtain ⟨⟨hk, hv⟩, ht⟩ := hplain
    cases fuel with
    | zero => simp at hfuel
    | succ f =>
      rw [pjEntriesAux.eq_def]
      simp only [jsonEntriesChars, jsonEntry, List.append_assoc, List.cons_append]
      rw [pjString_append _ hk]
      simp only []
      rw [pjString_append _ hv]
      simp only []
      cases t with
      | nil =>
        simp [jsonEntriesTail]
      | cons kv2 t2 =>
        have hrec : pjEntriesAux f ((jsonEntriesChars (kv2 :: t2)) ++ '\x7d' :: rest) =
            some (kv2 :: t2, rest) := by
          refine ih f rest (by simp) ?_ (by simpa [plainHeaders] using ht)
          simp only [List.length_cons] at hfuel ⊢
          omega
        simp only [jsonEntriesTail, jsonEntriesChars, List.cons_append,
          List.append_assoc] at hrec ⊢
        rw [hrec]
        simp

theorem jsonEntriesChars_cons_shape (kv : String × String)
    (t : List (String × String)) (hk : plainStr kv.1 = true) :
    jsonEntriesChars (kv :: t) =
      '"' :: ((kv.1.data ++ ['"']) ++
        ((':' :: ' ' :: jsonStr kv.2) ++ jsonEntriesTail t)) := by
  simp only [jsonEntriesChars, jsonEntry, jsonStr_plain hk, List.cons_append,
    List.append_assoc]

theorem pjObject_dumps (hh : List (String × String)) (rest : List Char)
    (hplain : plainHeaders hh = true) :
    pjObject (jsonDumps hh ++ rest) = some (hh, rest) := by
  cases hh with
  | nil => simp [jsonDumps, jsonEntriesChars, pjObject]
  | cons kv t =>
    have hk : plainStr kv.1 = true := by
      unfold plainHeaders at hplain
      simp only [List.all_cons, Bool.and_eq_true] at hplain
      exact hplain.1.1
    have hshape := jsonEntriesChars_cons_shape kv t hk
    have hdump : jsonDumps (kv :: t) ++ rest =
        '\x7b' :: (jsonEntriesChars (kv :: t) ++ '\x7d' :: rest) := by
      unfold jsonDumps
      rw [List.cons_append, List.append_assoc, List.singleton_append]
    rw [hdump, hshape, List.cons_append, pjObject.eq_def, ← List.cons_append,
      ← hshape]
    refine pjEntriesAux_dumps (kv :: t) _ rest (by simp) ?_ hplain
    have h1 := jsonEntriesChars_length (kv :: t)
    simp only [List.length_cons, List.length_append] at h1 ⊢
    omega

theorem jsonLoads_dumps (hh : List (String × String))
    (hplain : plainHeaders hh = true) :
    jsonLoads (jsonDumps hh ++ ['\n']) = some hh := by
  unfold jsonLoads
  rw [pjObject_dumps hh ['\n'] hplain]
  simp [isWsChar]

theorem jsonStr_no_newline {s : String} (h : plainStr s = true) :
    (jsonStr s).all (fun c => !(c == '\n')) = true := by
  rw [jsonStr_plain h]
  simp only [List.all_cons, List.all_append, List.all_nil, Bool.and_true,
    Bool.and_eq_true]
  exact ⟨by decide, all_weaken h (fun c hc => by simp [(plainChar_spec hc).2.2]),
    by decide⟩

theorem jsonEntry_no_newline {kv : String × String} (hk : plainStr kv.1 = true)
    (hv : plainStr kv.2 = true) :
    (jsonEntry kv).all (fun c => !(c == '\n')) = true := by
  unfold jsonEntry
  simp only [List.all_append, List.all_cons, Bool.and_eq_true]
  exact ⟨jsonStr_no_newline hk, by decide, by decide, jsonStr_no_newline hv⟩

theorem jsonEntriesTail_no_newline : ∀ {hh : List (String × String)},
    plainHeaders hh = true →
    (jsonEntriesTail hh).all (fun c => !(c == '\n')) = true := by
  intro hh
  induction hh with
  | nil => intro _; rfl
  | cons kv t ih =>
    intro h
    unfold plainHeaders at h
    simp only [List.all_cons, Bool.and_eq_true] at h
    obtain ⟨⟨hk, hv⟩, ht⟩ := h
    simp only [jsonEntriesTail, List.all_cons, List.all_append, Bool.and_eq_true]
    exact ⟨by decide, by decide, jsonEntry_no_newline hk hv,
      ih (by simpa [plainHeaders] using ht)⟩

theorem jsonDumps_no_newline {hh : List (String × String)}
    (h : plainHeaders hh = true) :
    (jsonDumps hh).all (fun c => !(c == '\n')) = true := by
  cases hh with
  | nil => rfl
  | cons kv t =>
    unfold plainHeaders at h
    simp only [List.all_cons, Bool.and_eq_true] at h
    obtain ⟨⟨hk, hv⟩, ht⟩ := h
    simp only [jsonDumps, jsonEntriesChars, List.all_cons, List.all_append,
      List.all_nil, Bool.and_true, Bool.and_eq_true]
    exact ⟨by decide, ⟨jsonEntry_no_newline hk hv,
      jsonEntriesTail_no_newline (by simpa [plainHeaders] using ht)⟩, by decide⟩

theorem setHeader_idem (h : List (String × String)) (k v : String) :
    setHeader (setHeader h k v) k v = setHeader h k v := by
  induction h with
  | nil => simp [setHeader]
  | cons kv t ih =>
    by_cases hk : kv.1 = k
    · simp [setHeader, hk]
    · simp [setHeader, hk, ih]

theorem eraseHeader_setHeader (h : List (String × String)) (k v : String) :
    eraseHeader (setHeader h k v) k = eraseHeader h k := by
  induction h with
  | nil => simp [setHeader, eraseHeader]
  | cons kv t ih =>
    by_cases hk : kv.1 = k
    · simp [setHeader, eraseHeader, hk]
    · simp [setHeader, eraseHeader, hk] at ih ⊢
      exact ih

theorem map_toNat_ofNat {bs : List Nat}
    (h : bs.all (fun b => decide (b < 256)) = true) :
    (bs.map Char.ofNat).map Char.toNat = bs := by
  induction bs with
  | nil => rfl
  | cons b t ih =>
    simp only [List.all_cons, Bool.and_eq_true, decide_eq_true_eq] at h
    simp [charOfNat_toNat (show b < 55296 by omega), ih h.2]

theorem map_ofNat_toNat_lt {bs : List Nat}
    (h : bs.all (fun b => decide (b < 256)) = true) :
    (bs.map Char.ofNat).all (fun c => decide (c.toNat < 256)) = true := by
  rw [List.all_eq_true] at h ⊢
  intro c hc
  obtain ⟨b, hb, rfl⟩ := List.mem_map.mp hc
  have hblt : b < 256 := by simpa using h b hb
  simp [charOfNat_toNat (show b < 55296 by omega), hblt]

theorem latin1Decode_lt {bs : List Nat}
    (h : bs.all (fun b => decide (b < 256)) = true) :
    latin1Decode bs = some (String.mk (bs.map Char.ofNat)) := by
  unfold latin1Decode
  simp [h]

theorem latin1Encode_decode {bs : List Nat}
    (h : bs.all (fun b => decide (b < 256)) = true) :
    latin1Encode (String.mk (bs.map Char.ofNat)) = some bs := by
  unfold latin1Encode
  rw [show (String.mk (bs.map Char.ofNat)).data = bs.map Char.ofNat from rfl]
  simp [map_ofNat_toNat_lt h, map_toNat_ofNat h]

/-- Claim C1 (code bug witnessed): with an explicit target timestamp 1000 and
tolerance 50 and an empty snapshot index, the handler finishes with status 523
and performs no live fetch, but the body reads `within None` — the raise site
(cache.py line 251) never passes the tolerance to `WaybackPageNotFound`, so the
body does not name the actual tolerance window (50). -/
theorem c1_version_not_found_response :
    proxyGetWayback [] [] "/cache" "h0" "http://a/x" 2000 (some 1000) (some 50) 2592000 =
      .error523 523 "Could not find \"http://a/x\" in cache before 1000 within None\n" := by
  decide

/-- Claim C2, counterexample: the no-target query filter is only
`timestamp > now - within` with no upper bound, so a stored snapshot with a
future timestamp (1500, insertable through the admin `_wb_force` path) is
served for `now = 1000`, `within = 100`, whereas the spec's `(now − W, now]`
rule would find no match and flag a fresh insert at `now`. -/
theorem c2_counterexample_future_snapshot :
    hash_request_wayback [("k", 1500)] "k" "u" 1000 false none none (some 100) 2592000 =
      .ok { hash := "k", timestamp := 1500, insert := false } ∧
    specResolveNoTarget [("k", 1500)] "k" 1000 100 =
      .ok { hash := "k", timestamp := 1000, insert := true } ∧
    hash_request_wayback [("k", 1500)] "k" "u" 1000 false none none (some 100) 2592000 ≠
      specResolveNoTarget [("k", 1500)] "k" 1000 100 := by
  decide

/-- Claim C2 (amended): with no target timestamp and a tolerance that is not
the exact-match value 0 (an absent tolerance defaulting to `default_within`),
resolution returns the latest recorded timestamp strictly greater than
`now − W` — with no upper bound at `now` — and flags a fresh snapshot at `now`
exactly when no stored timestamp exceeds `now − W`; version-not-found is never
raised on this path. -/
theorem c2_amended_no_target_window (idx : List (String × Int)) (hash url : String)
    (now d : Int) (wopt : Option Int) (hw : wopt ≠ some 0) :
    match hash_request_wayback idx hash url now false none none wopt d with
    | .ok ctx =>
        ctx.hash = hash ∧
        (ctx.insert = true → ctx.timestamp = now ∧
          ∀ row ∈ idx, row.1 = hash → row.2 ≤ now - wopt.getD d) ∧
        (ctx.insert = false → (hash, ctx.timestamp) ∈ idx ∧
          now - wopt.getD d < ctx.timestamp ∧
          ∀ row ∈ idx, row.1 = hash → now - wopt.getD d < row.2 →
            row.2 ≤ ctx.timestamp)
    | .pageNotFound _ _ _ => False := by
  have hmain : ∀ w : Int, w = wopt.getD d →
      (match (match selectLatest idx hash (fun t => decide (now - w < t)) with
        | some ts => WbResolve.ok { hash := hash, timestamp := ts, insert := false }
        | none => WbResolve.ok { hash := hash, timestamp := now, insert := true }) with
      | .ok ctx =>
          ctx.hash = hash ∧
          (ctx.insert = true → ctx.timestamp = now ∧
            ∀ row ∈ idx, row.1 = hash → row.2 ≤ now - wopt.getD d) ∧
          (ctx.insert = false → (hash, ctx.timestamp) ∈ idx ∧
            now - wopt.getD d < ctx.timestamp ∧
            ∀ row ∈ idx, row.1 = hash → now - wopt.getD d < row.2 →
              row.2 ≤ ctx.timestamp)
      | .pageNotFound _ _ _ => False) := by
    intro w hwd
    subst hwd
    cases hsel : selectLatest idx hash (fun t => decide (now - wopt.getD d < t)) with
    | some ts =>
      obtain ⟨hmem, hlt, hub⟩ := window_resolve_some hsel
      exact ⟨rfl, by simp, fun _ => ⟨hmem, hlt, hub⟩⟩
    | none =>
      exact ⟨rfl, fun _ => ⟨rfl, window_resolve_none hsel⟩, by simp⟩
  cases wopt with
  | none =>
    rw [hash_request_wayback_noTarget_noWithin]
    exact hmain d rfl
  | some w =>
    have hw0 : w ≠ 0 := fun h0 => hw (by rw [h0])
    rw [hash_request_wayback_noTarget hw0]
    exact hmain w rfl

/-- Claim C2 amended, witness: index `[("k", 900)]`, `now = 1000`,
tolerance 150: the stored snapshot at 900 lies in the window and is served. -/
theorem c2_amended_witness :
    (match hash_request_wayback [("k", 900)] "k" "u" 1000 false none none (some 150) 2592000 with
    | .ok ctx =>
        ctx.hash = "k" ∧
        (ctx.insert = true → ctx.timestamp = 1000 ∧
          ∀ row ∈ [(("k" : String), (900 : Int))], row.1 = "k" →
            row.2 ≤ 1000 - (some (150 : Int)).getD 2592000) ∧
        (ctx.insert = false → ("k", ctx.timestamp) ∈ [(("k" : String), (900 : Int))] ∧
          1000 - (some (150 : Int)).getD 2592000 < ctx.timestamp ∧
          ∀ row ∈ [(("k" : String), (900 : Int))], row.1 = "k" →
            1000 - (some (150 : Int)).getD 2592000 < row.2 →
            row.2 ≤ ctx.timestamp)
    | .pageNotFound _ _ _ => False) :=
  c2_amended_no_target_window [("k", 900)] "k" "u" 1000 2592000 (some 150) (by decide)

/-- Claim C3 (confirmed): with a target timestamp `rt` and a tolerance
`w > 0`, resolution returns the latest stored timestamp in the half-open
interval `(rt − w, rt]` for the fingerprint, and raises
`WaybackPageNotFound(url, rt)` when no stored timestamp lies in it. -/
theorem c3_target_with_tolerance (idx : List (String × Int)) (hash url : String)
    (now rt w d : Int) (hw : 0 < w) :
    match hash_request_wayback idx hash url now false none (some rt) (some w) d with
    | .ok ctx =>
        ctx.insert = false ∧ ctx.hash = hash ∧ (hash, ctx.timestamp) ∈ idx ∧
        rt - w < ctx.timestamp ∧ ctx.timestamp ≤ rt ∧
        ∀ row ∈ idx, row.1 = hash → rt - w < row.2 → row.2 ≤ rt →
          row.2 ≤ ctx.timestamp
    | .pageNotFound u ts wo =>
        u = url ∧ ts = some rt ∧ wo = none ∧
        ∀ row ∈ idx, row.1 = hash → ¬(rt - w < row.2 ∧ row.2 ≤ rt) := by
  have hw0 : w ≠ 0 := by omega
  rw [hash_request_wayback_target hw0]
  cases hsel : selectLatest idx hash
      (fun t => decide (t ≤ rt) && decide (rt - w < t)) with
  | some ts =>
    obtain ⟨⟨row, hrow, hk, ht⟩, hc, hub⟩ := selectLatest_some hsel
    rw [Bool.and_eq_true, decide_eq_true_eq, decide_eq_true_eq] at hc
    refine ⟨rfl, rfl, ?_, hc.2, hc.1, ?_⟩
    · have : (hash, ts) = row := by
        rw [← hk, ← ht]
      exact this ▸ hrow
    · intro row2 h2 hk2 hlt2 hle2
      exact hub row2 h2 hk2 (by simp [hle2, hlt2])
  | none =>
    refine ⟨rfl, rfl, rfl, ?_⟩
    intro row hrow hk hrange
    have := selectLatest_none hsel row hrow hk
    simp at this
    omega

/-- Claim C3, witness: snapshots at 900 and 1000, target 1000, tolerance 150:
both lie in `(850, 1000]` and the most recent (1000) is resolved. -/
theorem c3_target_with_tolerance_witness :
    (match hash_request_wayback [("k", 900), ("k", 1000)] "k" "u" 2000 false none
        (some 1000) (some 150) 2592000 with
    | .ok ctx =>
        ctx.insert = false ∧ ctx.hash = "k" ∧
        ("k", ctx.timestamp) ∈ [(("k" : String), (900 : Int)), ("k", 1000)] ∧
        (1000 : Int) - 150 < ctx.timestamp ∧ ctx.timestamp ≤ 1000 ∧
        ∀ row ∈ [(("k" : String), (900 : Int)), ("k", 1000)], row.1 = "k" →
          (1000 : Int) - 150 < row.2 → row.2 ≤ 1000 → row.2 ≤ ctx.timestamp
    | .pageNotFound u ts wo =>
        u = "u" ∧ ts = some 1000 ∧ wo = none ∧
        ∀ row ∈ [(("k" : String), (900 : Int)), ("k", 1000)], row.1 = "k" →
          ¬((1000 : Int) - 150 < row.2 ∧ row.2 ≤ 1000)) :=
  c3_target_with_tolerance [("k", 900), ("k", 1000)] "k" "u" 2000 1000 150 2592000
    (by decide)

/-- Claim C4 (code bug witnessed): `self.cache[req] = response` runs before
`set_status`/`write`/`finish`, and neither `os.makedirs` nor the sqlite index
`INSERT` is inside a `try` block — a failure in either escapes the store and
the fetched response is never delivered to the client. -/
theorem c4_storage_failure_blocks_delivery :
    handle_response true
      { dirExists := false, mkdirOk := false, gzipWriteOk := true,
        removeOk := true, indexInsertOk := true } true 200 "hello" =
      .notDelivered "makedirs" ∧
    handle_response true
      { dirExists := true, mkdirOk := true, gzipWriteOk := true,
        removeOk := true, indexInsertOk := false } true 200 "hello" =
      .notDelivered "sqlite-insert" ∧
    handle_response true
      { dirExists := true, mkdirOk := true, gzipWriteOk := false,
        removeOk := true, indexInsertOk := true } true 200 "hello" =
      .delivered 200 "hello" := by
  decide

/-- Claim C5, counterexample: when the gzip write of the record fails, the
bare `except` in `FileSystemCache._set` swallows the error and removes the
partial file, yet `WaybackFileSystemCache.__setitem__` still appends the
`(fingerprint, timestamp)` index row — the index entry is durable with no
record file on disk. -/
theorem c5_counterexample_index_without_record :
    (waybackPut [] [] "/cache" "abcd0123" 1700000000 false true).2 =
      [("abcd0123", 1700000000)] ∧
    (waybackPut [] [] "/cache" "abcd0123" 1700000000 false true).1 = [] := by
  decide

/-- Claim C5 (amended): on a wayback `put` for a context flagged as a new
insert, the record path embeds both the fingerprint and the resolved
timestamp, and the index row is appended after the record write attempt
whether or not that write succeeded (a write failure being swallowed); the
file exists afterwards exactly when the write succeeded. -/
theorem c5_amended_put_effect (fs : List String) (idx : List (String × Int))
    (root hash : String) (ts : Int) (gzipWriteOk insert : Bool) :
    (waybackPut fs idx root hash ts gzipWriteOk insert).2 =
      (if insert then (hash, ts) :: idx else idx) ∧
    (waybackPut fs idx root hash ts gzipWriteOk insert).1 =
      (if gzipWriteOk then joinPath root (wbPath hash ts) :: fs else fs) ∧
    ∃ pre post, wbPath hash ts = pre ++ (hash ++ "-" ++ toString ts) ++ post := by
  refine ⟨rfl, rfl, hash.take 2 ++ "/" ++ (hash.drop 2).take 2 ++ "/", ".gz", ?_⟩
  simp [wbPath, joinPath, String.append_assoc]

/-- Claim C6, counterexample: a byte body that declares `charset=utf-8` is
decoded to text on `put`, and `_get` returns it as *text* (the charset equals
`'utf-8'` so no re-encoding happens): the read-back body is the unicode string
`é`, not the stored byte string `\xc3\xa9` — status and headers survive, the
body value does not. -/
theorem c6_counterexample_utf8_body :
    (roundTrip "k0" { url := "http://e/x", error := none, code := 200,
                      headers := [("Content-Type", "text/html;charset=utf-8")],
                      body := .bytes [195, 169] }).map CachedResponse.body =
      some (PyBody.text "é") ∧
    PyBody.text "é" ≠ PyBody.bytes [195, 169] := by
  exact ⟨by decide, by decide⟩

/-- Claim C6 (amended): the store/read round trip preserves status code,
headers (up to the injected `X-Proxy-Cache-Key` provenance header) and body
bytes for error-free responses whose byte body resolves to the `'latin1'`
charset (the declared-or-default single-byte codec); a body declaring
`charset=utf-8` instead comes back as the decoded text (see the
counterexample).  Headers are restricted to single-line, escape-free names
and values already in tornado's canonical Http-Header-Case (`hnorm`: the
`HTTPHeaders` wrap performed by `_get` is the identity on them) and the URL
to a single line; a non-canonically-cased name such as `content-type` is
renamed on read and can flip the read-side charset resolution, so such
headers are outside this statement. -/
theorem c6_amended_roundtrip_latin1 (key : String) (r : CachedResponse)
    (herr : r.error = none)
    (hbody : ∃ bs, r.body = PyBody.bytes bs ∧ bs.all (fun b => decide (b < 256)) = true)
    (hcs : get_content_charset (setHeader r.headers "X-Proxy-Cache-Key" key) = "latin1")
    (hurl : r.url.data.all (fun c => !(c == '\n')) = true)
    (hhdr : plainHeaders (setHeader r.headers "X-Proxy-Cache-Key" key) = true)
    (hnorm : httpHeadersOf (setHeader r.headers "X-Proxy-Cache-Key" key) =
      setHeader r.headers "X-Proxy-Cache-Key" key) :
    ∃ r2, roundTrip key r = some r2 ∧ r2.code = r.code ∧
      eraseHeader r2.headers "X-Proxy-Cache-Key" =
        eraseHeader r.headers "X-Proxy-Cache-Key" ∧
      r2.body = r.body := by
  obtain ⟨bs, hb, hlt⟩ := hbody
  have hdec : pyDecode
      (get_content_charset (setHeader r.headers "X-Proxy-Cache-Key" key)) bs =
      some (String.mk (bs.map Char.ofNat)) := by
    rw [hcs]
    unfold pyDecode
    rw [if_neg (by decide), if_pos rfl]
    exact latin1Decode_lt hlt
  have hwrite : writeRecord key r = some (r.url.data ++ '\n' ::
      ((natToDigits r.code ++ [',']) ++ '\n' ::
        (jsonDumps (setHeader r.headers "X-Proxy-Cache-Key" key) ++ '\n' ::
          (bs.map Char.ofNat)))) := by
    unfold writeRecord
    simp only [hb, herr, hdec, Option.map_some']
  have hdig : (natToDigits r.code).all isDigitChar = true :=
    natToDigitsAux_all_digit (Nat.lt_succ_self _)
  have hline2 : ((natToDigits r.code ++ [',']).all (fun c => !(c == '\n'))) = true := by
    simp only [List.all_append, Bool.and_eq_true]
    exact ⟨all_weaken hdig (fun c hc => digit_not_newline hc), by decide⟩
  have hsplit : splitOnce ((natToDigits r.code ++ [',']) ++ ['\n']) =
      some (natToDigits r.code, ['\n']) := by
    rw [List.append_assoc, List.singleton_append]
    exact splitOnce_append _ _ (all_weaken hdig (fun c hc => digit_not_comma hc))
  have hloads := jsonLoads_dumps _ hhdr
  have henc : pyEncode "latin1" (String.mk (bs.map Char.ofNat)) = some bs := by
    unfold pyEncode
    rw [if_pos rfl]
    exact latin1Encode_decode hlt
  have hnn : normalizeHeaderName "X-Proxy-Cache-Key" = "X-Proxy-Cache-Key" := by
    decide
  unfold roundTrip
  rw [hwrite]
  simp only [Option.some_bind]
  rw [readRecord.eq_def]
  rw [readLine_append _ _ hurl]
  simp only [readLine_append _ _ hline2, hsplit, parseNatDigits_natToDigits,
    readLine_append _ _ (jsonDumps_no_newline hhdr), hloads, hnn, hnorm,
    setHeader_idem, hcs, henc]
  simp only [show ("latin1" = "utf-8") = False by simp, if_false, Option.map_some']
  refine ⟨_, rfl, rfl, ?_, ?_⟩
  · exact eraseHeader_setHeader r.headers _ _
  · exact hb.symm

/-- Claim C6 amended, witness: a 200 response with a latin1 body byte 0xE9
(`é`) and no declared charset round-trips to identical status, headers and
body bytes. -/
theorem c6_amended_roundtrip_latin1_witness :
    ∃ r2, roundTrip "k1" { url := "http://e/y", error := none, code := 200,
                           headers := [("Content-Type", "text/html")],
                           body := .bytes [104, 105, 233] } = some r2 ∧
      r2.code = 200 ∧
      eraseHeader r2.headers "X-Proxy-Cache-Key" =
        eraseHeader [("Content-Type", "text/html")] "X-Proxy-Cache-Key" ∧
      r2.body = PyBody.bytes [104, 105, 233] :=
  c6_amended_roundtrip_latin1 "k1"
    { url := "http://e/y", error := none, code := 200,
      headers := [("Content-Type", "text/html")],
      body := .bytes [104, 105, 233] }
    rfl ⟨[104, 105, 233], rfl, by decide⟩ (by decide) (by decide) (by decide)
    (by decide)

/-- Claim C7, counterexample: `Cache.hash_request` digests the bare
concatenation `url ∥ method ∥ body`, so the distinct triples
`("GET", "http://a/x", "")` and `("ET", "http://a/xG", "")` — differing in
both method and URL — produce the same md5 fingerprint. -/
theorem c7_counterexample_concat_aliasing :
    (⟨"http://a/x", "GET", some ""⟩ : PyRequest) ≠ ⟨"http://a/xG", "ET", some ""⟩ ∧
    hash_request ⟨"http://a/x", "GET", some ""⟩ =
      hash_request ⟨"http://a/xG", "ET", some ""⟩ := by
  exact ⟨by decide, by rfl⟩

/-- Claim C7 (amended): the fingerprint is a deterministic function of the
request, but it depends only on the unseparated byte concatenation
`url ∥ method ∥ (body or empty)`: any two triples with equal concatenations
— identical triples in particular, but also distinct triples that realign
characters between the fields or swap an absent body for an empty one —
receive equal fingerprints, so distinct triples are only guaranteed distinct
digests when their concatenations differ (and then up to md5 collisions). -/
theorem c7_amended_fingerprint_concat (r1 r2 : PyRequest)
    (h : hashInputBytes r1 = hashInputBytes r2) :
    hash_request r1 = hash_request r2 := by
  unfold hash_request
  rw [h]

/-- Claim C7 amended, witness: the realigned pair from the counterexample has
equal concatenations, hence equal fingerprints. -/
theorem c7_amended_fingerprint_concat_witness :
    hashInputBytes ⟨"http://a/x", "GET", some ""⟩ =
      hashInputBytes ⟨"http://a/xG", "ET", some ""⟩ ∧
    hash_request ⟨"http://a/x", "GET", some ""⟩ =
      hash_request ⟨"http://a/xG", "ET", some ""⟩ :=
  ⟨by decide, c7_amended_fingerprint_concat _ _ (by decide)⟩

/-- Claim C8 (code bug witnessed): `upstream.connect((host, port),
start_tunnel)` registers `start_tunnel` as the success callback only and sets
no error or close callback, so on upstream connect failure nothing at all is
written to the client — no proxy error is reported, in contrast to the
success path which writes the `HTTP/1.0 200 Connection established` line. -/
theorem c8_connect_failure_silent :
    proxyConnect false = [] ∧
    proxyConnect true =
      [.tunnelStarted, .clientWrite "HTTP/1.0 200 Connection established\r\n\r\n"] := by
  decide

/-- Claim C9 (confirmed): `FileSystemCache._contains` tests
`os.path.exists(key)` on the shard-relative key (resolved against the process
working directory), while `_set` writes under `self.root`; hence whenever the
root is not the working directory (and no stray file sits at the
cwd-relative key path), `contains` is false even immediately after a
successful `put` of the same request. -/
theorem c9_contains_misses_root (fs : List String) (root cwd hash : String)
    (hroot : root ≠ cwd)
    (hstray : pathExists fs (joinPath cwd (shardKey hash)) = false) :
    fsCacheContains (fsCacheSetFile fs root (shardKey hash)) cwd (shardKey hash) =
      false := by
  unfold fsCacheContains fsCacheSetFile
  have hne : joinPath root (shardKey hash) ≠ joinPath cwd (shardKey hash) :=
    fun h => hroot (joinPath_left_injective h)
  unfold pathExists
  rw [if_neg hne]
  exact hstray

/-- Claim C9, witness: empty filesystem, root `/cache`, working directory
`/work`. -/
theorem c9_contains_misses_root_witness :
    fsCacheContains (fsCacheSetFile [] "/cache" (shardKey "abcdef")) "/work"
      (shardKey "abcdef") = false :=
  c9_contains_misses_root [] "/cache" "/work" "abcdef" (by decide) (by decide)

/-- Claim C10 (confirmed): the constructor's `db_file` parameter is dead —
the sqlite index is always opened at `root/wayback.db` — and
`_create_tables` runs exactly when that file did not already exist. -/
theorem c10_init_ignores_db_file (root a b : String) (fs : List String) :
    waybackCacheInit root a fs = waybackCacheInit root b fs ∧
    (waybackCacheInit root a fs).dbPath = joinPath root "wayback.db" ∧
    ((waybackCacheInit root a fs).createTables = true ↔
      pathExists fs (joinPath root "wayback.db") = false) := by
  refine ⟨rfl, rfl, ?_⟩
  simp [waybackCacheInit]

end TornadoProxy
